import Mathlib

/-
Verification of the upload-lifecycle state machine of the
ONSdigital/dis-imf-uploader service.

The Go source is shallowly embedded: each handler in api/handlers.go and
each store operation in the mongo package becomes a pure Lean function over
an explicit `SystemState`; the outcomes of external collaborator calls
(S3 head/copy/put, CloudFront invalidation, Cloudflare purge, MongoDB
updates) that can fail in Go are driven by boolean flags in an environment
record, and `time.Now()` / freshly generated identifiers are environment
inputs. Machine integers (Go `int`, `int64`) are modelled as `Int` with
truncated division (`Int.tdiv` / `Int.tmod`), matching Go semantics; a Go
run-time panic (integer division by zero) is modelled by an `Option` result
of `none`. Byte slices are `List Nat`.
-/

namespace DisImf

/-! ## Data model (models package) -/

/-- models.UploadStatus. -/
inductive UploadStatus where
  | pending
  | approved
  | rejected
  | failed
deriving DecidableEq, Repr

/-- The bson/string form of a status, as stored and filtered on. -/
def statusString : UploadStatus → String
  | UploadStatus.pending => "pending"
  | UploadStatus.approved => "approved"
  | UploadStatus.rejected => "rejected"
  | UploadStatus.failed => "failed"

/-- models.UserRole. -/
inductive UserRole where
  | uploader
  | reviewer
  | admin
deriving DecidableEq, Repr

/-- models.User (the fields the handlers read). -/
structure User where
  email : String
  role : UserRole
deriving DecidableEq, Repr

/-- models.Upload.  Timestamps are abstract `Nat` ticks; `file_size` is a
Go `int64`, hence `Int`. -/
structure Upload where
  id : String
  fileName : String
  fileSize : Int
  contentType : String
  uploadedBy : String
  uploadedAt : Nat
  status : UploadStatus
  reviewedBy : String
  reviewedAt : Option Nat
  s3Key : String
  backupS3Key : String
  rejectionReason : String
  cloudFrontInvID : String
  invocationStatus : String
  fileChecksum : String
  tempStorageKey : String
  expiresAt : Option Nat
deriving DecidableEq, Repr

/-- models.BackupMetadata. -/
structure BackupMetadata where
  originalS3Key : String
  backupS3Key : String
  backupDate : Nat
  uploadID : String
  size : Int
deriving DecidableEq, Repr

/-- models.AuditLog. -/
structure AuditLog where
  uploadID : String
  action : String
  userEmail : String
  timestamp : Nat
  details : List (String × String)
  status : String
  errorMessage : String
deriving DecidableEq, Repr

/-- A Slack notification attempt (notifications are best-effort; only the
attempt itself is observable in the model). -/
structure Notification where
  ntype : String
  message : String
deriving DecidableEq, Repr

/-! ## Association-list stores

The ephemeral blob store (temp.InMemoryStorage) and the durable object
store (S3 keyed by full key) are key/value maps, modelled as association
lists with replace-on-insert. -/

/-- Store or overwrite a value under a key (temp Store / S3 PutObject /
S3 CopyObject destination). -/
def alistInsert (k : String) (v : List Nat) : List (String × List Nat) → List (String × List Nat)
  | [] => [(k, v)]
  | kv :: rest => if kv.1 = k then (k, v) :: rest else kv :: alistInsert k v rest

/-- Look a key up (temp Get / S3 HeadObject, GetObject).  `none` is the
key-not-found error. -/
def alistLookup (k : String) : List (String × List Nat) → Option (List Nat)
  | [] => none
  | kv :: rest => if kv.1 = k then some kv.2 else alistLookup k rest

/-- Delete a key (temp Delete / S3 DeleteObject). -/
def alistErase (k : String) (m : List (String × List Nat)) : List (String × List Nat) :=
  m.filter (fun kv => kv.1 ≠ k)

/-! ## System state -/

/-- The observable state of the whole system: the upload record store, the
user store, the ephemeral blob store, the durable object store (keyed by
full S3 key, i.e. prefix ++ name), saved backup metadata, the append-only
audit log and the notification side channel. -/
structure SystemState where
  uploads : List Upload
  users : List User
  tempStore : List (String × List Nat)
  s3Store : List (String × List Nat)
  backups : List BackupMetadata
  auditLogs : List AuditLog
  notifications : List Notification
deriving DecidableEq, Repr

/-- GetUpload: first record with the given id (`none` models both the
no-document case and an unparsable id, which the handlers treat alike). -/
def findUpload (s : SystemState) (id : String) : Option Upload :=
  s.uploads.find? (fun u => u.id == id)

/-- Handler.isReviewer: the user exists and has the reviewer or admin
role; a lookup error or missing user yields false. -/
def isReviewer (s : SystemState) (email : String) : Bool :=
  match s.users.find? (fun u => u.email == email) with
  | none => false
  | some u => u.role == UserRole.reviewer || u.role == UserRole.admin

/-- Append an audit entry (DB.LogAudit; its error is discarded by every
caller). -/
def logAudit (s : SystemState) (entry : AuditLog) : SystemState :=
  { s with auditLogs := s.auditLogs ++ [entry] }

/-- A best-effort error notification (SlackNotifier.Notify with type
"error"). -/
def notifyError (s : SystemState) (msg : String) : SystemState :=
  { s with notifications := s.notifications ++ [{ ntype := "error", message := msg }] }

/-- A best-effort lifecycle-event notification. -/
def notifyEvent (s : SystemState) (t : String) : SystemState :=
  { s with notifications := s.notifications ++ [{ ntype := t, message := "" }] }

/-- Update the first record with the given id (mongo UpdateOne on _id). -/
def updateFirst (id : String) (f : Upload → Upload) : List Upload → List Upload
  | [] => []
  | u :: rest => if u.id == id then f u :: rest else u :: updateFirst id f rest

/-- The $set document of DB.UpdateUploadApproved: status, reviewed_by,
reviewed_at, s3_key, backup_s3_key, cloudfront_inv_id, invocation_status.
No other field is touched (in particular temp_storage_key is not). -/
def setApproved (reviewedBy s3Key backupKey invID : String) (now : Nat) (u : Upload) : Upload :=
  { u with
    status := UploadStatus.approved
    reviewedBy := reviewedBy
    reviewedAt := some now
    s3Key := s3Key
    backupS3Key := backupKey
    cloudFrontInvID := invID
    invocationStatus := "InProgress" }

/-- The $set document of DB.UpdateUploadRejected: status, reviewed_by,
reviewed_at, rejection_reason.  No other field is touched. -/
def setRejected (reviewedBy reason : String) (now : Nat) (u : Upload) : Upload :=
  { u with
    status := UploadStatus.rejected
    reviewedBy := reviewedBy
    reviewedAt := some now
    rejectionReason := reason }

/-! ## Configuration and environments -/

/-- The configuration fields the lifecycle handlers read.  `s3BasePath` is
config S3Config.Prefix (the key namespace prepended by the storage layer). -/
structure Config where
  s3BasePath : String
  distributionID : String
  cloudflareToken : String
  cloudflareZoneID : String
  maxUploadSize : Int
  validationEnabled : Bool
  tempTTL : Nat
deriving DecidableEq, Repr

/-- Environment of one ApproveUpload call: which collaborator calls fail,
the current unix time, and the invalidation id CloudFront would return.
`headFails` is a non-404 error of S3 HeadObject inside CheckFileExists
(the handler discards that error: `exists, _ :=`). -/
structure ApproveEnv where
  headFails : Bool
  backupFails : Bool
  putFails : Bool
  invalidationFails : Bool
  purgeFails : Bool
  updateFails : Bool
  now : Nat
  invID : String
deriving DecidableEq, Repr

/-- Environment of one RejectUpload call. -/
structure RejectEnv where
  updateFails : Bool
  now : Nat
deriving DecidableEq, Repr

/-- Environment of one UploadFile call: the fresh temp-storage key, the
fresh record id, the clock, and collaborator failures. -/
structure SubmitEnv where
  tempKey : String
  newID : String
  now : Nat
  tempStoreFails : Bool
  createFails : Bool
  headFails : Bool
deriving DecidableEq, Repr

/-! ## ApproveUpload (api/handlers.go) -/

/-- models.ApproveResponse. -/
structure ApproveResponse where
  id : String
  status : UploadStatus
  s3Key : String
  backupKey : String
  cloudFrontInvID : String
  cloudflareReady : Bool
deriving DecidableEq, Repr

/-- The error outcomes of ApproveUpload, in handler order. -/
inductive ApproveError where
  | unauthorized
  | notFound
  | invalidState
  | tempNotFound
  | backupFailed
  | s3UploadFailed
  | invalidationFailed
  | updateFailed
deriving DecidableEq, Repr

/-- BackupFile's key convention: backup/unix-timestamp/original-name. -/
def backupKeyFor (now : Nat) (fileName : String) : String :=
  "backup/" ++ toString now ++ "/" ++ fileName

/-- Handler.ApproveUpload.  Translated step by step from
api/handlers.go: reviewer check, GetUpload (404), pending check (400),
temp Get (audit failure + error), CheckFileExists with its error
discarded, BackupFile + SaveBackupMetadata (copy failure fatal, metadata
insert error discarded), S3 UploadFile (fatal), CloudFront invalidation
when a distribution is configured (fatal), Cloudflare purge when
configured (non-fatal, error notification only), UpdateUploadApproved
(fatal, after invalidation), temp Delete, success audit entry,
approve notification, response with CloudflareReady hard-coded true. -/
def approveUpload (cfg : Config) (env : ApproveEnv) (uploadID reviewerEmail : String)
    (s : SystemState) : Except ApproveError ApproveResponse × SystemState :=
  if !(isReviewer s reviewerEmail) then (Except.error ApproveError.unauthorized, s)
  else
    match findUpload s uploadID with
    | none => (Except.error ApproveError.notFound, s)
    | some u =>
      if u.status ≠ UploadStatus.pending then (Except.error ApproveError.invalidState, s)
      else
        match alistLookup u.tempStorageKey s.tempStore with
        | none =>
          let s1 := notifyError s "Temp file not found"
          let s2 := logAudit s1
            { uploadID := u.id, action := "approve", userEmail := reviewerEmail,
              timestamp := env.now, details := [], status := "failure",
              errorMessage := "temp file not found" }
          (Except.error ApproveError.tempNotFound, s2)
        | some fileBytes =>
          let destKey := cfg.s3BasePath ++ u.fileName
          let existsInS3 := !env.headFails && (alistLookup destKey s.s3Store).isSome
          if existsInS3 && env.backupFails then
            (Except.error ApproveError.backupFailed,
              notifyError s "Failed to backup file")
          else
            let backupKey := if existsInS3 then backupKeyFor env.now u.fileName else ""
            let s1 :=
              if existsInS3 then
                let copied := { s with
                  s3Store := alistInsert (cfg.s3BasePath ++ backupKey)
                    ((alistLookup destKey s.s3Store).getD []) s.s3Store }
                { copied with backups := copied.backups ++
                  [{ originalS3Key := u.fileName, backupS3Key := backupKey,
                     backupDate := env.now, uploadID := u.id, size := u.fileSize }] }
              else s
            if env.putFails then
              (Except.error ApproveError.s3UploadFailed, notifyError s1 "S3 upload failed")
            else
              let s2 := { s1 with s3Store := alistInsert destKey fileBytes s1.s3Store }
              if cfg.distributionID ≠ "" && env.invalidationFails then
                (Except.error ApproveError.invalidationFailed,
                  notifyError s2 "CloudFront invalidation failed")
              else
                let invID := if cfg.distributionID ≠ "" then env.invID else ""
                let s3 :=
                  if cfg.cloudflareToken ≠ "" && cfg.cloudflareZoneID ≠ "" && env.purgeFails then
                    notifyError s2 "Cloudflare purge failed (non-critical)"
                  else s2
                if env.updateFails then
                  (Except.error ApproveError.updateFailed, s3)
                else
                  let ups :=
                    updateFirst uploadID
                      (setApproved reviewerEmail u.fileName backupKey invID env.now) s3.uploads
                  let s4 := { s3 with uploads := ups }
                  let s5 := { s4 with tempStore := alistErase u.tempStorageKey s4.tempStore }
                  let s6 := logAudit s5
                    { uploadID := u.id, action := "approve", userEmail := reviewerEmail,
                      timestamp := env.now,
                      details := [("s3_key", u.fileName), ("backup_key", backupKey),
                                  ("cloudfront_inv", invID), ("cloudflare_ready", "true")],
                      status := "success", errorMessage := "" }
                  let s7 := notifyEvent s6 "approve"
                  (Except.ok
                    { id := u.id, status := UploadStatus.approved, s3Key := u.fileName,
                      backupKey := backupKey, cloudFrontInvID := invID,
                      cloudflareReady := true }, s7)

/-! ## RejectUpload (api/handlers.go) -/

/-- models.RejectResponse. -/
structure RejectResponse where
  status : String
  reason : String
deriving DecidableEq, Repr

/-- The error outcomes of RejectUpload.  A body that fails to decode is a
400 upstream of this model; the decoded reason string is a parameter. -/
inductive RejectError where
  | unauthorized
  | notFound
  | updateFailed
deriving DecidableEq, Repr

/-- Handler.RejectUpload.  Translated from api/handlers.go: reviewer
check, GetUpload (404 when nil), UpdateUploadRejected (fatal),
temp Delete, success audit entry with the reason, reject notification.
Note: the handler checks neither that the upload is still pending nor
that the reason is non-empty. -/
def rejectUpload (env : RejectEnv) (uploadID reviewerEmail reason : String)
    (s : SystemState) : Except RejectError RejectResponse × SystemState :=
  if !(isReviewer s reviewerEmail) then (Except.error RejectError.unauthorized, s)
  else
    match findUpload s uploadID with
    | none => (Except.error RejectError.notFound, s)
    | some u =>
      if env.updateFails then
        (Except.error RejectError.updateFailed, notifyError s "Failed to reject upload")
      else
        let ups := updateFirst uploadID (setRejected reviewerEmail reason env.now) s.uploads
        let s1 := { s with uploads := ups }
        let s2 := { s1 with tempStore := alistErase u.tempStorageKey s1.tempStore }
        let s3 := logAudit s2
          { uploadID := u.id, action := "reject", userEmail := reviewerEmail,
            timestamp := env.now, details := [("reason", reason)],
            status := "success", errorMessage := "" }
        let s4 := notifyEvent s3 "reject"
        (Except.ok { status := "rejected", reason := reason }, s4)

/-! ## UploadFile (api/handlers.go) -/

/-- models.UploadResponse. -/
structure UploadResponse where
  id : String
  fileName : String
  status : UploadStatus
  existsInS3 : Bool
  fileChecksum : String
  message : String
deriving DecidableEq, Repr

/-- The error outcomes of UploadFile (form-parse and missing-file 400s are
upstream of this model). -/
inductive SubmitError where
  | tooLarge
  | validationFailed
  | tempStoreFailed
  | createFailed
deriving DecidableEq, Repr

/-- Handler.UploadFile.  Translated from api/handlers.go: size check
against MaxUploadSize, md5 checksum of the full content (the hex digest
function is the abstract parameter `hash`), the externally supplied
validation predicate when enabled, temp Store under a fresh key (fatal),
CheckFileExists with its error discarded (response/audit detail only),
CreateUpload (fatal; the temp entry is left to expire), upload audit
entry, upload notification. -/
def uploadFile (cfg : Config) (env : SubmitEnv) (hash : List Nat → String)
    (validate : String → List Nat → Bool)
    (fileName : String) (fileSize : Int) (contentType userEmail : String)
    (fileBytes : List Nat) (s : SystemState) :
    Except SubmitError UploadResponse × SystemState :=
  if fileSize > cfg.maxUploadSize then (Except.error SubmitError.tooLarge, s)
  else
    let checksum := hash fileBytes
    if cfg.validationEnabled && !(validate fileName fileBytes) then
      (Except.error SubmitError.validationFailed, notifyError s "File validation failed")
    else if env.tempStoreFails then
      (Except.error SubmitError.tempStoreFailed, notifyError s "Failed to store temp file")
    else
      let s1 := { s with tempStore := alistInsert env.tempKey fileBytes s.tempStore }
      let existsInS3 := !env.headFails && (alistLookup (cfg.s3BasePath ++ fileName) s1.s3Store).isSome
      if env.createFails then
        (Except.error SubmitError.createFailed, notifyError s1 "Failed to create upload record")
      else
        let u : Upload :=
          { id := env.newID, fileName := fileName, fileSize := fileSize,
            contentType := contentType, uploadedBy := userEmail, uploadedAt := env.now,
            status := UploadStatus.pending, reviewedBy := "", reviewedAt := none,
            s3Key := "", backupS3Key := "", rejectionReason := "",
            cloudFrontInvID := "", invocationStatus := "", fileChecksum := checksum,
            tempStorageKey := env.tempKey, expiresAt := some (env.now + cfg.tempTTL) }
        let s2 := { s1 with uploads := s1.uploads ++ [u] }
        let s3 := logAudit s2
          { uploadID := u.id, action := "upload", userEmail := userEmail,
            timestamp := env.now,
            details := [("file_name", fileName), ("file_size", toString fileSize),
                        ("exists", toString existsInS3)],
            status := "success", errorMessage := "" }
        let s4 := notifyEvent s3 "upload"
        (Except.ok
          { id := u.id, fileName := fileName, status := UploadStatus.pending,
            existsInS3 := existsInS3, fileChecksum := checksum,
            message := "File pending review" }, s4)

/-! ## ListUploads / ListAuditLogs (api/handlers.go + mongo store) -/

/-- The page-size clamp of Handler.ListUploads: an upper bound of 100,
with no lower bound. -/
def clampUploadsPageSize (v : Int) : Int := if v > 100 then 100 else v

/-- The page-size clamp of Handler.ListAuditLogs: an upper bound of 200,
with no lower bound. -/
def clampAuditPageSize (v : Int) : Int := if v > 200 then 200 else v

/-- DB.ListUploads: optional status filter, CountDocuments total, then
Skip((page-1)*pageSize) and Limit(pageSize).  MongoDB's sort stage
permutes the filtered list before skip/limit and is omitted here: the
claims concern only counts, which every permutation preserves. -/
def dbListUploads (s : SystemState) (status : String) (page pageSize : Int) :
    List Upload × Int :=
  let filtered := if status = "" then s.uploads
    else s.uploads.filter (fun u => statusString u.status == status)
  let items := (filtered.drop ((page - 1) * pageSize).toNat).take pageSize.toNat
  (items, (filtered.length : Int))

/-- DB.ListAuditLogs: optional upload_id / action / user_email filters,
CountDocuments total, then skip/limit as in DB.ListUploads. -/
def dbListAuditLogs (s : SystemState) (uploadID action userEmail : String)
    (page pageSize : Int) : List AuditLog × Int :=
  let f1 := if uploadID = "" then s.auditLogs
    else s.auditLogs.filter (fun l => l.uploadID == uploadID)
  let f2 := if action = "" then f1 else f1.filter (fun l => l.action == action)
  let f3 := if userEmail = "" then f2 else f2.filter (fun l => l.userEmail == userEmail)
  let items := (f3.drop ((page - 1) * pageSize).toNat).take pageSize.toNat
  (items, (f3.length : Int))

/-- models.ListUploadsResponse. -/
structure ListUploadsResponse where
  uploads : List Upload
  total : Int
  page : Int
  pageSize : Int
  totalPages : Int
deriving DecidableEq, Repr

/-- models.ListAuditLogsResponse. -/
structure ListAuditLogsResponse where
  logs : List AuditLog
  total : Int
  page : Int
  pageSize : Int
  totalPages : Int
deriving DecidableEq, Repr

/-- Handler.ListUploads.  page defaults to 1 and page_size to 20; a
supplied page_size is clamped from above only.  totalPages is Go integer
division (truncated) plus one when the remainder is non-zero; Go panics
on a zero divisor, modelled as `none`. -/
def listUploads (s : SystemState) (status : String)
    (pageParam pageSizeParam : Option Int) : Option ListUploadsResponse :=
  let page := pageParam.getD 1
  let pageSize := match pageSizeParam with
    | none => 20
    | some v => clampUploadsPageSize v
  if pageSize = 0 then none
  else
    let res := dbListUploads s status page pageSize
    let tp0 := res.2.tdiv pageSize
    let totalPages := if res.2.tmod pageSize ≠ 0 then tp0 + 1 else tp0
    some { uploads := res.1, total := res.2, page := page, pageSize := pageSize,
           totalPages := totalPages }

/-- Handler.ListAuditLogs.  page defaults to 1 and page_size to 50;
clamped from above to 200 only; same division-by-zero behaviour. -/
def listAuditLogs (s : SystemState) (uploadID action userEmail : String)
    (pageParam pageSizeParam : Option Int) : Option ListAuditLogsResponse :=
  let page := pageParam.getD 1
  let pageSize := match pageSizeParam with
    | none => 50
    | some v => clampAuditPageSize v
  if pageSize = 0 then none
  else
    let res := dbListAuditLogs s uploadID action userEmail page pageSize
    let tp0 := res.2.tdiv pageSize
    let totalPages := if res.2.tmod pageSize ≠ 0 then tp0 + 1 else tp0
    some { logs := res.1, total := res.2, page := page, pageSize := pageSize,
           totalPages := totalPages }

/-! ## Concrete fixtures used by counterexamples and witnesses -/

/-- A user with the reviewer role. -/
def reviewerUser : User := { email := "rev@ons.gov", role := UserRole.reviewer }

/-- A pending upload whose bytes sit in the ephemeral store under tk1. -/
def pendingUpload : Upload :=
  { id := "u1", fileName := "doc.pdf", fileSize := 10, contentType := "application/pdf",
    uploadedBy := "user@ons.gov", uploadedAt := 100, status := UploadStatus.pending,
    reviewedBy := "", reviewedAt := none, s3Key := "", backupS3Key := "",
    rejectionReason := "", cloudFrontInvID := "", invocationStatus := "",
    fileChecksum := "abc123", tempStorageKey := "tk1", expiresAt := some 200 }

/-- The same upload already approved (a terminal record). -/
def approvedUpload : Upload :=
  { pendingUpload with
    status := UploadStatus.approved
    reviewedBy := "rev@ons.gov"
    reviewedAt := some 110
    s3Key := "doc.pdf" }

/-- Base state: one pending upload, its temp bytes, one reviewer, empty
durable store. -/
def baseState : SystemState :=
  { uploads := [pendingUpload], users := [reviewerUser],
    tempStore := [("tk1", [1, 2, 3])], s3Store := [], backups := [],
    auditLogs := [], notifications := [] }

/-- Base state with a previously published object at the destination key. -/
def stateWithExisting : SystemState :=
  { baseState with s3Store := [("imf/doc.pdf", [9, 9])] }

/-- Base state whose upload is already approved. -/
def stateApproved : SystemState :=
  { baseState with uploads := [approvedUpload] }

/-- Configuration with no CDN collaborators configured. -/
def cfgPlain : Config :=
  { s3BasePath := "imf/", distributionID := "", cloudflareToken := "",
    cloudflareZoneID := "", maxUploadSize := 1000, validationEnabled := false,
    tempTTL := 50 }

/-- Configuration with CloudFront and Cloudflare configured. -/
def cfgFull : Config :=
  { cfgPlain with
    distributionID := "DIST1"
    cloudflareToken := "tok"
    cloudflareZoneID := "zone" }

/-- An approve environment in which every collaborator call succeeds. -/
def envOk : ApproveEnv :=
  { headFails := false, backupFails := false, putFails := false,
    invalidationFails := false, purgeFails := false, updateFails := false,
    now := 111, invID := "inv-1" }

/-- Approve environment whose S3 existence check fails (error discarded). -/
def envHeadFail : ApproveEnv := { envOk with headFails := true }

/-- Approve environment whose Cloudflare purge fails. -/
def envPurgeFail : ApproveEnv := { envOk with purgeFails := true }

/-- Approve environment whose CloudFront invalidation fails. -/
def envInvFail : ApproveEnv := { envOk with invalidationFails := true }

/-- A reject environment whose record update succeeds. -/
def rejEnvOk : RejectEnv := { updateFails := false, now := 222 }

/-! ## Helper lemmas -/

theorem alistLookup_insert_self (k : String) (v : List Nat) (m : List (String × List Nat)) :
    alistLookup k (alistInsert k v m) = some v := by
  induction m with
  | nil => simp [alistInsert, alistLookup]
  | cons kv rest ih =>
    by_cases h : kv.1 = k
    · simp [alistInsert, alistLookup, h]
    · simp [alistInsert, alistLookup, h, ih]

theorem alistLookup_erase_self (k : String) (m : List (String × List Nat)) :
    alistLookup k (alistErase k m) = none := by
  induction m with
  | nil => rfl
  | cons kv rest ih =>
    by_cases h : kv.1 = k
    · simpa [alistErase, h] using ih
    · simpa [alistErase, alistLookup, h] using ih

theorem find?_updateFirst (id : String) (f : Upload → Upload) (l : List Upload)
    (hf : ∀ u, (f u).id = u.id) :
    (updateFirst id f l).find? (fun u => u.id == id) =
      (l.find? (fun u => u.id == id)).map f := by
  induction l with
  | nil => rfl
  | cons a t ih =>
    by_cases h : a.id = id
    · have hb : (a.id == id) = true := by simp [h]
      have hfb : ((f a).id == id) = true := by simp [hf, h]
      simp [updateFirst, List.find?, hb, hfb]
    · have hb : (a.id == id) = false := by simp [h]
      simp [updateFirst, List.find?, hb, ih]

theorem find?_append_singleton (p : Upload → Bool) (l : List Upload) (x : Upload)
    (h : l.find? p = none) :
    (l ++ [x]).find? p = if p x then some x else none := by
  induction l with
  | nil => simp [List.find?]; split <;> simp_all [List.find?]
  | cons a t ih =>
    cases hp : p a with
    | true => simp [List.find?, hp] at h
    | false =>
      simp only [List.find?, hp] at h
      simpa [List.find?, hp] using ih h

/-- Go's truncated division rounds a nonnegative quotient like the
ceiling formula: n.tdiv k plus one when the remainder is non-zero equals
(n + k - 1).tdiv k. -/
theorem tdiv_ceil (n k : Int) (hn : 0 ≤ n) (hk : 0 < k) :
    (if n.tmod k ≠ 0 then n.tdiv k + 1 else n.tdiv k) = (n + k - 1).tdiv k := by
  have hk0 : (0 : Int) ≤ k := le_of_lt hk
  have h1 : n.tdiv k = n / k := Int.tdiv_eq_ediv hn hk0
  have h2 : n.tmod k = n % k := Int.tmod_eq_emod hn hk0
  have h3 : (n + k - 1).tdiv k = (n + k - 1) / k := Int.tdiv_eq_ediv (by omega) hk0
  rw [h1, h2, h3]
  have hdm := Int.ediv_add_emod n k
  have hmul : k * (n / k) = (n / k) * k := Int.mul_comm _ _
  have hr0 : 0 ≤ n % k := Int.emod_nonneg n (ne_of_gt hk)
  have hrk : n % k < k := Int.emod_lt_of_pos n hk
  by_cases h : n % k = 0
  · have hsplit : n + k - 1 = (k - 1) + (n / k) * k := by omega
    have hz : (k - 1) / k = 0 := Int.ediv_eq_zero_of_lt (by omega) (by omega)
    rw [if_neg (by simpa using h), hsplit,
      Int.add_mul_ediv_right _ _ (ne_of_gt hk), hz]
    omega
  · have hmul2 : (n / k + 1) * k = (n / k) * k + k := by ring
    have hsplit : n + k - 1 = (n % k - 1) + (n / k + 1) * k := by omega
    have hz : (n % k - 1) / k = 0 := Int.ediv_eq_zero_of_lt (by omega) (by omega)
    rw [if_pos (by simpa using h), hsplit,
      Int.add_mul_ediv_right _ _ (ne_of_gt hk), hz]
    omega

/-! ## Claim C3 -/

/-- Claim C3 (confirmed): Approve fails with NotFound when the upload does
not exist and with InvalidState when it exists but is not pending; in
both cases the state — in particular the audit log — is completely
unchanged, so no approve audit entry is written for a missing id. -/
theorem approve_notFound_and_invalidState (cfg : Config) (env : ApproveEnv)
    (uploadID reviewerEmail : String) (s : SystemState)
    (hrev : isReviewer s reviewerEmail = true) :
    (findUpload s uploadID = none →
      approveUpload cfg env uploadID reviewerEmail s =
        (Except.error ApproveError.notFound, s)) ∧
    (∀ u, findUpload s uploadID = some u → u.status ≠ UploadStatus.pending →
      approveUpload cfg env uploadID reviewerEmail s =
        (Except.error ApproveError.invalidState, s)) := by
  constructor
  · intro hfind
    simp [approveUpload, hrev, hfind]
  · intro u hfind hstat
    simp [approveUpload, hrev, hfind, hstat]

/-- Witness for C3: on the fixture state, approving the unknown id zzz
returns NotFound with the state untouched, and approving the already
approved u1 returns InvalidState with the state untouched. -/
theorem approve_notFound_and_invalidState_witness :
    approveUpload cfgPlain envOk "zzz" "rev@ons.gov" baseState =
      (Except.error ApproveError.notFound, baseState) ∧
    approveUpload cfgPlain envOk "u1" "rev@ons.gov" stateApproved =
      (Except.error ApproveError.invalidState, stateApproved) := by
  constructor
  · exact (approve_notFound_and_invalidState cfgPlain envOk "zzz" "rev@ons.gov"
      baseState rfl).1 rfl
  · exact (approve_notFound_and_invalidState cfgPlain envOk "u1" "rev@ons.gov"
      stateApproved rfl).2 approvedUpload rfl (by decide)

/-! ## Claim C1 -/

/-- Counterexample to C1 as stated: rejecting an upload whose status is
already approved (a terminal state) succeeds and changes the record to
rejected, contradicting the claim that a Reject call on a terminal upload
returns InvalidState/NotFound and causes no further side effects. -/
theorem reject_terminal_counterexample :
    (findUpload stateApproved "u1").map Upload.status = some UploadStatus.approved ∧
    ((rejectUpload rejEnvOk "u1" "rev@ons.gov" "second thoughts" stateApproved).1).isOk
      = true ∧
    (findUpload (rejectUpload rejEnvOk "u1" "rev@ons.gov" "second thoughts"
        stateApproved).2 "u1").map Upload.status = some UploadStatus.rejected := by
  exact ⟨rfl, rfl, rfl⟩

/-- Claim C1 (amended): a second Approve call on a terminal (approved or
rejected) upload returns InvalidState and causes no side effects; Reject,
however, performs no status check: on the same terminal upload it
succeeds and overwrites the record to rejected. -/
theorem terminal_approve_blocked_reject_not (cfg : Config) (env : ApproveEnv)
    (renv : RejectEnv) (uploadID reviewerEmail reason : String) (s : SystemState)
    (u : Upload)
    (hrev : isReviewer s reviewerEmail = true)
    (hfind : findUpload s uploadID = some u)
    (hterm : u.status = UploadStatus.approved ∨ u.status = UploadStatus.rejected)
    (hupd : renv.updateFails = false) :
    approveUpload cfg env uploadID reviewerEmail s =
      (Except.error ApproveError.invalidState, s) ∧
    (rejectUpload renv uploadID reviewerEmail reason s).1 =
      Except.ok { status := "rejected", reason := reason } ∧
    (findUpload (rejectUpload renv uploadID reviewerEmail reason s).2 uploadID).map
      Upload.status = some UploadStatus.rejected := by
  have hstat : u.status ≠ UploadStatus.pending := by
    rcases hterm with h | h <;> simp [h]
  refine ⟨?_, ?_, ?_⟩
  · simp [approveUpload, hrev, hfind, hstat]
  · simp [rejectUpload, hrev, hfind, hupd]
  · simp only [rejectUpload, hrev, Bool.not_true, Bool.false_eq_true, if_false, hfind,
      hupd, Bool.false_eq_true, if_false]
    simp only [findUpload, logAudit, notifyEvent]
    rw [find?_updateFirst uploadID (setRejected reviewerEmail reason renv.now) s.uploads
      (fun _ => rfl)]
    simp only [findUpload] at hfind
    simp [hfind, setRejected]

/-- Witness for C1's amended theorem, on the fixture state whose upload
u1 is already approved. -/
theorem terminal_approve_blocked_reject_not_witness :
    approveUpload cfgPlain envOk "u1" "rev@ons.gov" stateApproved =
      (Except.error ApproveError.invalidState, stateApproved) ∧
    (rejectUpload rejEnvOk "u1" "rev@ons.gov" "r" stateApproved).1 =
      Except.ok { status := "rejected", reason := "r" } := by
  have h := terminal_approve_blocked_reject_not cfgPlain envOk rejEnvOk "u1"
    "rev@ons.gov" "r" stateApproved approvedUpload rfl rfl (Or.inl rfl) rfl
  exact ⟨h.1, h.2.1⟩

/-! ## Claim C6 -/

/-- Counterexample to C6 as stated: with the Cloudflare purge configured
and failing, Approve still succeeds and the returned CloudflareReady flag
is true, where the claim requires it to be false on a failed purge. -/
theorem cloudflareReady_counterexample :
    envPurgeFail.purgeFails = true ∧
    (approveUpload cfgFull envPurgeFail "u1" "rev@ons.gov" baseState).1 =
      Except.ok { id := "u1", status := UploadStatus.approved, s3Key := "doc.pdf",
                  backupKey := "", cloudFrontInvID := "inv-1",
                  cloudflareReady := true } := by
  exact ⟨rfl, rfl⟩

/-- Claim C6 (amended): the CloudflareReady boolean of every successful
Approve response is the hard-coded constant true, regardless of whether
the purge step ran, was skipped, or failed. -/
theorem cloudflareReady_always_true (cfg : Config) (env : ApproveEnv)
    (uploadID reviewerEmail : String) (s : SystemState) (resp : ApproveResponse)
    (h : (approveUpload cfg env uploadID reviewerEmail s).1 = Except.ok resp) :
    resp.cloudflareReady = true := by
  by_cases h1 : isReviewer s reviewerEmail = true
  case neg => simp [approveUpload, h1] at h
  cases hf : findUpload s uploadID with
  | none => simp [approveUpload, h1, hf] at h
  | some u =>
    by_cases h2 : u.status = UploadStatus.pending
    case neg => simp [approveUpload, h1, hf, h2] at h
    cases ht : alistLookup u.tempStorageKey s.tempStore with
    | none => simp [approveUpload, h1, hf, h2, ht] at h
    | some bytes =>
      by_cases hback :
        ((!env.headFails && (alistLookup (cfg.s3BasePath ++ u.fileName) s.s3Store).isSome)
          && env.backupFails) = true
      case pos => simp [approveUpload, h1, hf, h2, ht, hback] at h
      by_cases hpf : env.putFails = true
      case pos => simp [approveUpload, h1, hf, h2, ht, hback, hpf] at h
      by_cases hif : cfg.distributionID ≠ "" ∧ env.invalidationFails = true
      case pos => simp [approveUpload, h1, hf, h2, ht, hback, hpf, hif] at h
      by_cases huf : env.updateFails = true
      case pos => simp [approveUpload, h1, hf, h2, ht, hback, hpf, hif, huf] at h
      simp [approveUpload, h1, hf, h2, ht, hback, hpf, hif, huf] at h
      subst h
      rfl

/-- Witness for C6's amended theorem at a concrete successful approval. -/
theorem cloudflareReady_always_true_witness :
    ({ id := "u1", status := UploadStatus.approved, s3Key := "doc.pdf",
       backupKey := "", cloudFrontInvID := "", cloudflareReady := true } :
      ApproveResponse).cloudflareReady = true :=
  cloudflareReady_always_true cfgPlain envOk "u1" "rev@ons.gov" baseState _ rfl

/-! ## Claim C2 -/

/-- Counterexample to C2 as stated: a successful Approve leaves the
ephemeral-storage key tk1 (a non-empty string) stored in the upload
record — UpdateUploadApproved's $set never clears temp_storage_key — so
the key is not cleared on reaching the terminal state. -/
theorem temp_key_not_cleared_counterexample :
    ((approveUpload cfgPlain envOk "u1" "rev@ons.gov" baseState).1).isOk = true ∧
    (findUpload (approveUpload cfgPlain envOk "u1" "rev@ons.gov" baseState).2 "u1").map
      Upload.tempStorageKey = some "tk1" ∧
    ("tk1" : String) ≠ "" := by
  refine ⟨rfl, rfl, by decide⟩

/-- Claim C2 (amended): on a successful Approve or Reject the ephemeral
copy is deleted from the ephemeral store, but the temp_storage_key field
of the upload record is left exactly as it was — the update documents do
not clear it. -/
theorem terminal_transition_temp_cleanup (cfg : Config) (env : ApproveEnv)
    (renv : RejectEnv) (uploadID reviewerEmail reason : String) (s : SystemState)
    (u : Upload) (bytes : List Nat)
    (hrev : isReviewer s reviewerEmail = true)
    (hfind : findUpload s uploadID = some u)
    (hpend : u.status = UploadStatus.pending)
    (htemp : alistLookup u.tempStorageKey s.tempStore = some bytes)
    (hb : env.backupFails = false) (hp : env.putFails = false)
    (hi : env.invalidationFails = false) (hu : env.updateFails = false)
    (hru : renv.updateFails = false) :
    (((approveUpload cfg env uploadID reviewerEmail s).1).isOk = true ∧
     alistLookup u.tempStorageKey
       (approveUpload cfg env uploadID reviewerEmail s).2.tempStore = none ∧
     (findUpload (approveUpload cfg env uploadID reviewerEmail s).2 uploadID).map
       Upload.tempStorageKey = some u.tempStorageKey) ∧
    (((rejectUpload renv uploadID reviewerEmail reason s).1).isOk = true ∧
     alistLookup u.tempStorageKey
       (rejectUpload renv uploadID reviewerEmail reason s).2.tempStore = none ∧
     (findUpload (rejectUpload renv uploadID reviewerEmail reason s).2 uploadID).map
       Upload.tempStorageKey = some u.tempStorageKey) := by
  have hfind' : s.uploads.find? (fun v => v.id == uploadID) = some u := hfind
  constructor
  · refine ⟨?_, ?_, ?_⟩
    · simp [approveUpload, hrev, hfind, hpend, htemp, hb, hp, hi, hu]
      rfl
    · simp [approveUpload, hrev, hfind, hpend, htemp, hb, hp, hi, hu,
        notifyError, notifyEvent, logAudit, apply_ite SystemState.tempStore,
        alistLookup_erase_self]
    · simp [approveUpload, hrev, hfind, hpend, htemp, hb, hp, hi, hu,
        findUpload, notifyError, notifyEvent, logAudit,
        apply_ite SystemState.uploads, find?_updateFirst, setApproved, hfind']
  · refine ⟨?_, ?_, ?_⟩
    · simp [rejectUpload, hrev, hfind, hru]
      rfl
    · simp only [rejectUpload, hrev, Bool.not_true, Bool.false_eq_true, if_false,
        hfind, hru]
      simp only [notifyError, notifyEvent, logAudit]
      simp [alistLookup_erase_self]
    · simp only [rejectUpload, hrev, Bool.not_true, Bool.false_eq_true, if_false,
        hfind, hru]
      simp only [findUpload, notifyError, notifyEvent, logAudit]
      rw [find?_updateFirst uploadID (setRejected reviewerEmail reason renv.now)
        s.uploads (fun _ => rfl)]
      simp [hfind', setRejected]

/-- Witness for C2's amended theorem: after approving (resp. rejecting)
the fixture upload, the ephemeral entry tk1 is gone from the temp store. -/
theorem terminal_transition_temp_cleanup_witness :
    alistLookup "tk1" (approveUpload cfgPlain envOk "u1" "rev@ons.gov"
      baseState).2.tempStore = none ∧
    alistLookup "tk1" (rejectUpload rejEnvOk "u1" "rev@ons.gov" "bad format"
      baseState).2.tempStore = none := by
  have h := terminal_transition_temp_cleanup cfgPlain envOk rejEnvOk "u1"
    "rev@ons.gov" "bad format" baseState pendingUpload [1, 2, 3]
    rfl rfl rfl rfl rfl rfl rfl rfl rfl
  exact ⟨h.1.2.1, h.2.2.1⟩

/-! ## Claim C4 -/

theorem backupKeyFor_ne_empty (now : Nat) (name : String) :
    backupKeyFor now name ≠ "" := by
  intro h
  have hlen := congrArg String.length h
  rw [backupKeyFor] at hlen
  simp only [String.length_append] at hlen
  have h7 : ("backup/" : String).length = 7 := rfl
  have h0 : ("" : String).length = 0 := rfl
  omega

/-- Counterexample to C4 as stated: an object does exist at the
destination key immediately before the Approve call, yet — because the
existence check fails and its error is discarded (`exists, _ :=`) — no
backup is made: the approval succeeds with an empty backup key and no
BackupMetadata, breaking the claimed iff. -/
theorem backup_counterexample :
    (alistLookup "imf/doc.pdf" stateWithExisting.s3Store).isSome = true ∧
    (approveUpload cfgPlain envHeadFail "u1" "rev@ons.gov" stateWithExisting).1 =
      Except.ok { id := "u1", status := UploadStatus.approved, s3Key := "doc.pdf",
                  backupKey := "", cloudFrontInvID := "",
                  cloudflareReady := true } ∧
    (approveUpload cfgPlain envHeadFail "u1" "rev@ons.gov"
      stateWithExisting).2.backups = [] := by
  exact ⟨rfl, rfl, rfl⟩

/-- Claim C4 (amended): provided the destination-existence check itself
succeeds, a backup is made iff an object exists at the destination key:
a failing copy aborts the approval; a successful copy yields the backup
key backup/unix-ts/original-name and persisted BackupMetadata; with no
pre-existing object the backup key is empty and no metadata is stored.
(When the existence check errors, the code discards the error and treats
the object as absent.) -/
theorem backup_iff_destination_existed (cfg : Config) (env : ApproveEnv)
    (uploadID reviewerEmail : String) (s : SystemState) (u : Upload)
    (bytes : List Nat)
    (hrev : isReviewer s reviewerEmail = true)
    (hfind : findUpload s uploadID = some u)
    (hpend : u.status = UploadStatus.pending)
    (htemp : alistLookup u.tempStorageKey s.tempStore = some bytes)
    (hhead : env.headFails = false)
    (hp : env.putFails = false) (hi : env.invalidationFails = false)
    (hu : env.updateFails = false) :
    ((alistLookup (cfg.s3BasePath ++ u.fileName) s.s3Store).isSome = true →
      env.backupFails = true →
      approveUpload cfg env uploadID reviewerEmail s =
        (Except.error ApproveError.backupFailed,
          notifyError s "Failed to backup file")) ∧
    (env.backupFails = false →
      ∃ resp, (approveUpload cfg env uploadID reviewerEmail s).1 = Except.ok resp ∧
        (resp.backupKey ≠ "" ↔
          (alistLookup (cfg.s3BasePath ++ u.fileName) s.s3Store).isSome = true) ∧
        ((alistLookup (cfg.s3BasePath ++ u.fileName) s.s3Store).isSome = true →
          resp.backupKey = backupKeyFor env.now u.fileName ∧
          ({ originalS3Key := u.fileName,
             backupS3Key := backupKeyFor env.now u.fileName,
             backupDate := env.now, uploadID := u.id,
             size := u.fileSize } : BackupMetadata) ∈
            (approveUpload cfg env uploadID reviewerEmail s).2.backups) ∧
        ((alistLookup (cfg.s3BasePath ++ u.fileName) s.s3Store).isSome = false →
          resp.backupKey = "" ∧
          (approveUpload cfg env uploadID reviewerEmail s).2.backups = s.backups)) := by
  constructor
  · intro hex hbf
    simp [approveUpload, hrev, hfind, hpend, htemp, hhead, hex, hbf]
  · intro hbf
    by_cases hex : (alistLookup (cfg.s3BasePath ++ u.fileName) s.s3Store).isSome = true
    · refine ⟨{ id := u.id, status := UploadStatus.approved, s3Key := u.fileName,
                backupKey := backupKeyFor env.now u.fileName,
                cloudFrontInvID := if cfg.distributionID = "" then "" else env.invID,
                cloudflareReady := true }, ?_, ?_, ?_, ?_⟩
      · simp [approveUpload, hrev, hfind, hpend, htemp, hhead, hex, hbf, hp, hi, hu]
      · simp [backupKeyFor_ne_empty, hex]
      · intro _
        refine ⟨rfl, ?_⟩
        simp [approveUpload, hrev, hfind, hpend, htemp, hhead, hex, hbf, hp, hi, hu,
          notifyError, notifyEvent, logAudit, apply_ite SystemState.backups]
      · intro hex'
        rw [hex] at hex'
        cases hex'
    · have hex' : (alistLookup (cfg.s3BasePath ++ u.fileName) s.s3Store).isSome = false := by
        simpa using hex
      refine ⟨{ id := u.id, status := UploadStatus.approved, s3Key := u.fileName,
                backupKey := "",
                cloudFrontInvID := if cfg.distributionID = "" then "" else env.invID,
                cloudflareReady := true }, ?_, ?_, ?_, ?_⟩
      · simp [approveUpload, hrev, hfind, hpend, htemp, hhead, hex', hbf, hp, hi, hu]
      · simp [hex']
      · intro hc
        rw [hex'] at hc
        cases hc
      · intro _
        refine ⟨rfl, ?_⟩
        simp [approveUpload, hrev, hfind, hpend, htemp, hhead, hex', hbf, hp, hi, hu,
          notifyError, notifyEvent, logAudit, apply_ite SystemState.backups]

/-- Witness for C4's amended theorem: on the fixture with an object
already published at imf/doc.pdf, the approval records the timestamped
backup key and its metadata. -/
theorem backup_iff_destination_existed_witness :
    ∃ resp,
      (approveUpload cfgPlain envOk "u1" "rev@ons.gov" stateWithExisting).1 =
        Except.ok resp ∧
      (resp.backupKey ≠ "" ↔
        (alistLookup ("imf/" ++ "doc.pdf") stateWithExisting.s3Store).isSome = true) := by
  have h := (backup_iff_destination_existed cfgPlain envOk "u1" "rev@ons.gov"
    stateWithExisting pendingUpload [1, 2, 3] rfl rfl rfl rfl rfl rfl rfl rfl).2 rfl
  obtain ⟨resp, h1, h2, _, _⟩ := h
  exact ⟨resp, h1, h2⟩

/-! ## Claim C5 -/

/-- Claim C5 (confirmed): a CloudFront invalidation failure aborts the
Approve with an error although the destination object was already
written, and the upload record is untouched — still pending — because
the record update happens after invalidation; a Cloudflare purge
failure, by contrast, is non-fatal: the approval records an error
notification yet returns success. -/
theorem invalidation_fatal_purge_nonfatal (cfg : Config) (env1 env2 : ApproveEnv)
    (uploadID reviewerEmail : String) (s : SystemState) (u : Upload)
    (bytes : List Nat)
    (hrev : isReviewer s reviewerEmail = true)
    (hfind : findUpload s uploadID = some u)
    (hpend : u.status = UploadStatus.pending)
    (htemp : alistLookup u.tempStorageKey s.tempStore = some bytes)
    (hdist : cfg.distributionID ≠ "")
    (htok : cfg.cloudflareToken ≠ "") (hzone : cfg.cloudflareZoneID ≠ "")
    (h1b : env1.backupFails = false) (h1p : env1.putFails = false)
    (h1i : env1.invalidationFails = true)
    (h2b : env2.backupFails = false) (h2p : env2.putFails = false)
    (h2i : env2.invalidationFails = false) (h2u : env2.updateFails = false)
    (h2g : env2.purgeFails = true) :
    ((approveUpload cfg env1 uploadID reviewerEmail s).1 =
       Except.error ApproveError.invalidationFailed ∧
     alistLookup (cfg.s3BasePath ++ u.fileName)
       (approveUpload cfg env1 uploadID reviewerEmail s).2.s3Store = some bytes ∧
     (approveUpload cfg env1 uploadID reviewerEmail s).2.uploads = s.uploads ∧
     (findUpload (approveUpload cfg env1 uploadID reviewerEmail s).2 uploadID).map
       Upload.status = some UploadStatus.pending) ∧
    (((approveUpload cfg env2 uploadID reviewerEmail s).1).isOk = true ∧
     ({ ntype := "error", message := "Cloudflare purge failed (non-critical)" } :
        Notification) ∈
       (approveUpload cfg env2 uploadID reviewerEmail s).2.notifications) := by
  constructor
  · have h3 : (approveUpload cfg env1 uploadID reviewerEmail s).2.uploads = s.uploads := by
      simp [approveUpload, hrev, hfind, hpend, htemp, hdist, h1b, h1p, h1i,
        notifyError, apply_ite SystemState.uploads]
    refine ⟨?_, ?_, h3, ?_⟩
    · simp [approveUpload, hrev, hfind, hpend, htemp, hdist, h1b, h1p, h1i]
    · simp [approveUpload, hrev, hfind, hpend, htemp, hdist, h1b, h1p, h1i,
        notifyError, apply_ite SystemState.s3Store, alistLookup_insert_self]
    · have hfind' : s.uploads.find? (fun v => v.id == uploadID) = some u := hfind
      simp [findUpload, h3, hfind', hpend]
  · constructor
    · simp [approveUpload, hrev, hfind, hpend, htemp, h2b, h2p, h2i, h2u]
      rfl
    · simp [approveUpload, hrev, hfind, hpend, htemp, h2b, h2p, h2i, h2u, h2g,
        htok, hzone, notifyError, notifyEvent, logAudit,
        apply_ite SystemState.notifications]

/-- Witness for C5 on the fixture state with CloudFront and Cloudflare
configured: the failing-invalidation run errors with the record still
pending, and the failing-purge run succeeds. -/
theorem invalidation_fatal_purge_nonfatal_witness :
    (approveUpload cfgFull envInvFail "u1" "rev@ons.gov" baseState).1 =
      Except.error ApproveError.invalidationFailed ∧
    ((approveUpload cfgFull envPurgeFail "u1" "rev@ons.gov" baseState).1).isOk
      = true := by
  have h := invalidation_fatal_purge_nonfatal cfgFull envInvFail envPurgeFail "u1"
    "rev@ons.gov" baseState pendingUpload [1, 2, 3] rfl rfl rfl rfl
    (by decide) (by decide) (by decide) rfl rfl rfl rfl rfl rfl rfl rfl
  exact ⟨h.1.1, h.2.1⟩

/-! ## Claim C7 -/

/-- Claim C7 (confirmed): for a file accepted by Submit and then
approved, the checksum recorded at Submit is the hash of exactly the
bytes that end up at the destination key: the ephemeral store returns
the very bytes that were hashed, and Approve writes them verbatim. -/
theorem submit_then_approve_checksum (cfg : Config) (senv : SubmitEnv)
    (aenv : ApproveEnv) (hash : List Nat → String)
    (validate : String → List Nat → Bool)
    (fileName : String) (fileSize : Int)
    (contentType userEmail reviewerEmail : String)
    (fileBytes : List Nat) (s : SystemState)
    (hsize : ¬ fileSize > cfg.maxUploadSize)
    (hval : (cfg.validationEnabled && !(validate fileName fileBytes)) = false)
    (hts : senv.tempStoreFails = false) (hcr : senv.createFails = false)
    (hfresh : findUpload s senv.newID = none)
    (hrev : isReviewer s reviewerEmail = true)
    (hb : aenv.backupFails = false) (hp : aenv.putFails = false)
    (hi : aenv.invalidationFails = false) (hu : aenv.updateFails = false) :
    ∃ resp aresp,
      (uploadFile cfg senv hash validate fileName fileSize contentType userEmail
        fileBytes s).1 = Except.ok resp ∧
      (approveUpload cfg aenv senv.newID reviewerEmail
        (uploadFile cfg senv hash validate fileName fileSize contentType userEmail
          fileBytes s).2).1 = Except.ok aresp ∧
      alistLookup (cfg.s3BasePath ++ fileName)
        (approveUpload cfg aenv senv.newID reviewerEmail
          (uploadFile cfg senv hash validate fileName fileSize contentType userEmail
            fileBytes s).2).2.s3Store = some fileBytes ∧
      resp.fileChecksum = hash fileBytes := by
  obtain ⟨S, hS⟩ : ∃ S, (uploadFile cfg senv hash validate fileName fileSize
      contentType userEmail fileBytes s).2 = S := ⟨_, rfl⟩
  set newU : Upload :=
    { id := senv.newID, fileName := fileName, fileSize := fileSize,
      contentType := contentType, uploadedBy := userEmail, uploadedAt := senv.now,
      status := UploadStatus.pending, reviewedBy := "", reviewedAt := none,
      s3Key := "", backupS3Key := "", rejectionReason := "",
      cloudFrontInvID := "", invocationStatus := "", fileChecksum := hash fileBytes,
      tempStorageKey := senv.tempKey,
      expiresAt := some (senv.now + cfg.tempTTL) } with hnewU
  have hSu : S.uploads = s.uploads ++ [newU] := by
    rw [← hS]
    simp [uploadFile, hsize, hval, hts, hcr, logAudit, notifyEvent, hnewU]
  have hSt : S.tempStore = alistInsert senv.tempKey fileBytes s.tempStore := by
    rw [← hS]
    simp [uploadFile, hsize, hval, hts, hcr, logAudit, notifyEvent]
  have hSs3 : S.s3Store = s.s3Store := by
    rw [← hS]
    simp [uploadFile, hsize, hval, hts, hcr, logAudit, notifyEvent]
  have hSusers : S.users = s.users := by
    rw [← hS]
    simp [uploadFile, hsize, hval, hts, hcr, logAudit, notifyEvent]
  have hfresh' : s.uploads.find? (fun v => v.id == senv.newID) = none := hfresh
  have hfind1 : findUpload S senv.newID = some newU := by
    simp only [findUpload, hSu]
    rw [find?_append_singleton _ _ _ hfresh']
    simp [hnewU]
  have hrev1 : isReviewer S reviewerEmail = true := by
    simp only [isReviewer, hSusers]
    simpa [isReviewer] using hrev
  have htemp1 : alistLookup newU.tempStorageKey S.tempStore = some fileBytes := by
    rw [hSt]
    exact alistLookup_insert_self _ _ _
  have hpend1 : newU.status = UploadStatus.pending := rfl
  have hr : ∃ r, (uploadFile cfg senv hash validate fileName fileSize contentType
      userEmail fileBytes s).1 = Except.ok r ∧ r.fileChecksum = hash fileBytes := by
    simp [uploadFile, hsize, hval, hts, hcr]
  obtain ⟨r, hr1, hr2⟩ := hr
  have hA1 : ∃ ar, (approveUpload cfg aenv senv.newID reviewerEmail S).1 =
      Except.ok ar := by
    simp [approveUpload, hrev1, hfind1, hpend1, htemp1, hb, hp, hi, hu]
  obtain ⟨ar, hA1⟩ := hA1
  have hA2 : alistLookup (cfg.s3BasePath ++ fileName)
      (approveUpload cfg aenv senv.newID reviewerEmail S).2.s3Store =
        some fileBytes := by
    simp [approveUpload, hrev1, hfind1, hpend1, htemp1, hb, hp, hi, hu,
      notifyError, notifyEvent, logAudit, apply_ite SystemState.s3Store,
      alistLookup_insert_self]
  rw [hS]
  exact ⟨r, ar, hr1, hA1, hA2, hr2⟩

/-- Witness for C7: a concrete submission to an empty system followed by
its approval, with a concrete stand-in hash function. -/
theorem submit_then_approve_checksum_witness :
    ∃ resp aresp,
      (uploadFile cfgPlain
        { tempKey := "tkey9", newID := "u9", now := 10, tempStoreFails := false,
          createFails := false, headFails := false }
        (fun bs => toString bs.length) (fun _ _ => true)
        "new.pdf" 3 "application/pdf" "user@ons.gov" [7, 8, 9]
        { baseState with uploads := [] }).1 = Except.ok resp ∧
      (approveUpload cfgPlain envOk "u9" "rev@ons.gov"
        (uploadFile cfgPlain
          { tempKey := "tkey9", newID := "u9", now := 10, tempStoreFails := false,
            createFails := false, headFails := false }
          (fun bs => toString bs.length) (fun _ _ => true)
          "new.pdf" 3 "application/pdf" "user@ons.gov" [7, 8, 9]
          { baseState with uploads := [] }).2).1 = Except.ok aresp ∧
      alistLookup ("imf/" ++ "new.pdf")
        (approveUpload cfgPlain envOk "u9" "rev@ons.gov"
          (uploadFile cfgPlain
            { tempKey := "tkey9", newID := "u9", now := 10, tempStoreFails := false,
              createFails := false, headFails := false }
            (fun bs => toString bs.length) (fun _ _ => true)
            "new.pdf" 3 "application/pdf" "user@ons.gov" [7, 8, 9]
            { baseState with uploads := [] }).2).2.s3Store = some [7, 8, 9] ∧
      resp.fileChecksum = (fun (bs : List Nat) => toString bs.length) [7, 8, 9] := by
  exact submit_then_approve_checksum cfgPlain
    { tempKey := "tkey9", newID := "u9", now := 10, tempStoreFails := false,
      createFails := false, headFails := false }
    envOk (fun bs => toString bs.length) (fun _ _ => true)
    "new.pdf" 3 "application/pdf" "user@ons.gov" "rev@ons.gov" [7, 8, 9]
    { baseState with uploads := [] }
    (by decide) rfl rfl rfl rfl rfl rfl rfl rfl rfl

/-! ## Claim C8 -/

/-- Counterexample to C8 as stated: Reject does not require a non-empty
reason — rejecting a pending upload with the empty reason succeeds, and
the empty reason is persisted. -/
theorem reject_empty_reason_counterexample :
    (rejectUpload rejEnvOk "u1" "rev@ons.gov" "" baseState).1 =
      Except.ok { status := "rejected", reason := "" } ∧
    (findUpload (rejectUpload rejEnvOk "u1" "rev@ons.gov" "" baseState).2 "u1").map
      Upload.rejectionReason = some "" := by
  exact ⟨rfl, rfl⟩

/-- Claim C8 (amended): Reject requires that the upload exists (NotFound
otherwise, with no side effects) but does not validate the reason; for
any reason, including the empty string, it persists status rejected with
the reviewer identity, review timestamp and the reason verbatim, deletes
the ephemeral copy, and appends an audit entry carrying that reason. -/
theorem reject_spec (renv : RejectEnv) (uploadID reviewerEmail reason : String)
    (s : SystemState)
    (hrev : isReviewer s reviewerEmail = true)
    (hru : renv.updateFails = false) :
    (findUpload s uploadID = none →
      rejectUpload renv uploadID reviewerEmail reason s =
        (Except.error RejectError.notFound, s)) ∧
    (∀ u, findUpload s uploadID = some u →
      (rejectUpload renv uploadID reviewerEmail reason s).1 =
        Except.ok { status := "rejected", reason := reason } ∧
      findUpload (rejectUpload renv uploadID reviewerEmail reason s).2 uploadID =
        some (setRejected reviewerEmail reason renv.now u) ∧
      alistLookup u.tempStorageKey
        (rejectUpload renv uploadID reviewerEmail reason s).2.tempStore = none ∧
      (rejectUpload renv uploadID reviewerEmail reason s).2.auditLogs =
        s.auditLogs ++
          [{ uploadID := u.id, action := "reject", userEmail := reviewerEmail,
             timestamp := renv.now, details := [("reason", reason)],
             status := "success", errorMessage := "" }]) := by
  constructor
  · intro hfind
    simp [rejectUpload, hrev, hfind]
  · intro u hfind
    have hfind' : s.uploads.find? (fun v => v.id == uploadID) = some u := hfind
    refine ⟨?_, ?_, ?_, ?_⟩
    · simp [rejectUpload, hrev, hfind, hru]
    · simp only [rejectUpload, hrev, Bool.not_true, Bool.false_eq_true, if_false,
        hfind, hru]
      simp only [findUpload, notifyError, notifyEvent, logAudit]
      rw [find?_updateFirst uploadID (setRejected reviewerEmail reason renv.now)
        s.uploads (fun _ => rfl)]
      simp [hfind']
    · simp [rejectUpload, hrev, hfind, hru, notifyError, notifyEvent, logAudit,
        alistLookup_erase_self]
    · simp [rejectUpload, hrev, hfind, hru, notifyError, notifyEvent, logAudit]

/-- Witness for C8's amended theorem: rejecting the fixture's pending
upload with reason bad format persists that reason verbatim. -/
theorem reject_spec_witness :
    (rejectUpload rejEnvOk "u1" "rev@ons.gov" "bad format" baseState).1 =
      Except.ok { status := "rejected", reason := "bad format" } ∧
    findUpload (rejectUpload rejEnvOk "u1" "rev@ons.gov" "bad format" baseState).2
      "u1" = some (setRejected "rev@ons.gov" "bad format" 222 pendingUpload) := by
  have h := (reject_spec rejEnvOk "u1" "rev@ons.gov" "bad format" baseState
    rfl rfl).2 pendingUpload rfl
  exact ⟨h.1, h.2.1⟩

/-! ## Claim C9 -/

/-- Claim C9 (confirmed, for requests with a positive page and page size,
the regime in which the Go arithmetic is defined — see C10): the
requested page size is clamped to the configured maximum (100 for
uploads, 200 for audit logs), total_pages equals the ceiling of
total / page_size, and the number of returned items is at most the
effective page size. -/
theorem pagination_spec (s : SystemState) (status uploadID action userEmail : String)
    (page ps : Int) (hpage : 1 ≤ page) (hps : 1 ≤ ps) :
    ∃ r1 r2,
      listUploads s status (some page) (some ps) = some r1 ∧
      listAuditLogs s uploadID action userEmail (some page) (some ps) = some r2 ∧
      r1.pageSize = clampUploadsPageSize ps ∧ r1.pageSize ≤ 100 ∧
      r2.pageSize = clampAuditPageSize ps ∧ r2.pageSize ≤ 200 ∧
      r1.totalPages = (r1.total + r1.pageSize - 1).tdiv r1.pageSize ∧
      r2.totalPages = (r2.total + r2.pageSize - 1).tdiv r2.pageSize ∧
      (r1.uploads.length : Int) ≤ r1.pageSize ∧
      (r2.logs.length : Int) ≤ r2.pageSize := by
  have h1 : 1 ≤ clampUploadsPageSize ps := by
    unfold clampUploadsPageSize; split <;> omega
  have h2 : 1 ≤ clampAuditPageSize ps := by
    unfold clampAuditPageSize; split <;> omega
  have h1' : ¬ clampUploadsPageSize ps = 0 := by omega
  have h2' : ¬ clampAuditPageSize ps = 0 := by omega
  have htot1 : 0 ≤ (dbListUploads s status page (clampUploadsPageSize ps)).2 := by
    simp [dbListUploads]
  have htot2 : 0 ≤ (dbListAuditLogs s uploadID action userEmail page
      (clampAuditPageSize ps)).2 := by
    simp [dbListAuditLogs]
  refine ⟨{ uploads := (dbListUploads s status page (clampUploadsPageSize ps)).1,
            total := (dbListUploads s status page (clampUploadsPageSize ps)).2,
            page := page, pageSize := clampUploadsPageSize ps,
            totalPages :=
              if (dbListUploads s status page (clampUploadsPageSize ps)).2.tmod
                  (clampUploadsPageSize ps) ≠ 0 then
                (dbListUploads s status page (clampUploadsPageSize ps)).2.tdiv
                  (clampUploadsPageSize ps) + 1
              else
                (dbListUploads s status page (clampUploadsPageSize ps)).2.tdiv
                  (clampUploadsPageSize ps) },
          { logs := (dbListAuditLogs s uploadID action userEmail page
              (clampAuditPageSize ps)).1,
            total := (dbListAuditLogs s uploadID action userEmail page
              (clampAuditPageSize ps)).2,
            page := page, pageSize := clampAuditPageSize ps,
            totalPages :=
              if (dbListAuditLogs s uploadID action userEmail page
                  (clampAuditPageSize ps)).2.tmod (clampAuditPageSize ps) ≠ 0 then
                (dbListAuditLogs s uploadID action userEmail page
                  (clampAuditPageSize ps)).2.tdiv (clampAuditPageSize ps) + 1
              else
                (dbListAuditLogs s uploadID action userEmail page
                  (clampAuditPageSize ps)).2.tdiv (clampAuditPageSize ps) },
          ?_, ?_, rfl, ?_, rfl, ?_, ?_, ?_, ?_, ?_⟩
  · simp only [listUploads]
    rw [if_neg h1']
    rfl
  · simp only [listAuditLogs]
    rw [if_neg h2']
    rfl
  · show clampUploadsPageSize ps ≤ 100
    unfold clampUploadsPageSize; split <;> omega
  · show clampAuditPageSize ps ≤ 200
    unfold clampAuditPageSize; split <;> omega
  · exact tdiv_ceil _ _ htot1 (by omega)
  · exact tdiv_ceil _ _ htot2 (by omega)
  · show (((dbListUploads s status page (clampUploadsPageSize ps)).1).length : Int)
        ≤ clampUploadsPageSize ps
    have hlen : ((dbListUploads s status page (clampUploadsPageSize ps)).1).length
        ≤ (clampUploadsPageSize ps).toNat := by
      simp only [dbListUploads]
      exact List.length_take_le _ _
    have hcast := Int.toNat_of_nonneg
      (show (0 : Int) ≤ clampUploadsPageSize ps by omega)
    omega
  · show (((dbListAuditLogs s uploadID action userEmail page
        (clampAuditPageSize ps)).1).length : Int) ≤ clampAuditPageSize ps
    have hlen : ((dbListAuditLogs s uploadID action userEmail page
        (clampAuditPageSize ps)).1).length ≤ (clampAuditPageSize ps).toNat := by
      simp only [dbListAuditLogs]
      exact List.length_take_le _ _
    have hcast := Int.toNat_of_nonneg
      (show (0 : Int) ≤ clampAuditPageSize ps by omega)
    omega

/-- Witness for C9 at a concrete state and page parameters. -/
theorem pagination_spec_witness :
    ∃ r1 r2,
      listUploads baseState "" (some 1) (some 20) = some r1 ∧
      listAuditLogs baseState "" "" "" (some 1) (some 20) = some r2 ∧
      r1.pageSize = clampUploadsPageSize 20 ∧ r1.pageSize ≤ 100 ∧
      r2.pageSize = clampAuditPageSize 20 ∧ r2.pageSize ≤ 200 ∧
      r1.totalPages = (r1.total + r1.pageSize - 1).tdiv r1.pageSize ∧
      r2.totalPages = (r2.total + r2.pageSize - 1).tdiv r2.pageSize ∧
      (r1.uploads.length : Int) ≤ r1.pageSize ∧
      (r2.logs.length : Int) ≤ r2.pageSize :=
  pagination_spec baseState "" "" "" "" 1 20 (by decide) (by decide)

/-! ## Claim C10 -/

/-- Claim C10 (confirmed): the page-size clamps only bound from above —
zero and negative values pass unchanged — and a request with
page_size = 0 makes the total-pages computation divide by zero (a Go
run-time panic, modelled as none), so the listings are total only under
the unstated precondition page_size > 0. -/
theorem pagination_zero_page_size (s : SystemState) :
    clampUploadsPageSize 0 = 0 ∧ clampAuditPageSize 0 = 0 ∧
    clampUploadsPageSize (-5) = -5 ∧ clampAuditPageSize (-5) = -5 ∧
    (∀ status, listUploads s status (some 1) (some 0) = none) ∧
    (∀ uploadID action userEmail,
      listAuditLogs s uploadID action userEmail (some 1) (some 0) = none) ∧
    (∀ status page ps, 1 ≤ ps →
      (listUploads s status page (some ps)).isSome = true) ∧
    (∀ uploadID action userEmail page ps, 1 ≤ ps →
      (listAuditLogs s uploadID action userEmail page (some ps)).isSome = true) := by
  refine ⟨by decide, by decide, by decide, by decide, ?_, ?_, ?_, ?_⟩
  · intro status
    rfl
  · intro uploadID action userEmail
    rfl
  · intro status page ps hps
    have h1 : ¬ clampUploadsPageSize ps = 0 := by
      unfold clampUploadsPageSize; split <;> omega
    simp [listUploads, h1]
  · intro uploadID action userEmail page ps hps
    have h2 : ¬ clampAuditPageSize ps = 0 := by
      unfold clampAuditPageSize; split <;> omega
    simp [listAuditLogs, h2]

/-- Witness for C10: the zero-page-size request on the fixture state is
undefined (panics), while page size 3 is accepted. -/
theorem pagination_zero_page_size_witness :
    listUploads baseState "" (some 1) (some 0) = none ∧
    (listUploads baseState "" (some 1) (some 3)).isSome = true := by
  have h := pagination_zero_page_size baseState
  exact ⟨h.2.2.2.2.1 "", h.2.2.2.2.2.2.1 "" (some 1) 3 (by decide)⟩

end DisImf
